import Mathlib

/-!
Verification development for the in-memory inverted index core
(`search::memoryindex::MemoryIndex`, memory_index.cpp) and the
`proton::TransientMemoryUsageProvider` (transient_memory_usage_provider.cpp).

The state of a `MemoryIndex` and its public operations are embedded as pure
Lean functions on an explicit state record.  External collaborators that are
not part of the two source files (the `Schema` operations, the
`DocumentInverter` staging behaviour, the field-index posting lookup) are
modelled from the specification, as marked in their doc comments.
-/

namespace MemoryIndexModel

/-- Modelled from the spec: the schema collaborator is "an ordered set of
indexed fields, each with a stable field id"; it "exposes field-id lookup by
name, an unknown-field sentinel, and a schema-intersection operation".
A schema is the ordered list of its index-field names; the field id of a
field is its position in that list. -/
structure Schema where
  fields : List String
deriving DecidableEq, Repr

/-- Modelled from the spec: field-id lookup by name.  `none` plays the role of
the `Schema::UNKNOWN_FIELD_ID` sentinel. -/
def Schema.getIndexFieldId (s : Schema) (name : String) : Option Nat :=
  s.fields.findIdx? (fun f => f = name)

/-- Modelled from the spec: the schema-intersection operation
(`Schema::intersect`): the fields of the first schema that also appear in the
second, in the first schema's order. -/
def Schema.intersect (a b : Schema) : Schema :=
  ⟨a.fields.filter (fun f => f ∈ b.fields)⟩

/-- Modelled from the spec: a document as handed to `insertDocument` is
queried "for its per-field content"; we keep, per field name, the list of
terms occurring in that field. -/
structure Document where
  fields : List (String × List String)
deriving DecidableEq, Repr

/-- The field-index collection, "treated as abstract ordered containers":
for each field id and term, the posting list of document ids.  An empty list
plays the role of an invalid (`!valid()`) frozen posting iterator. -/
def FieldIndexes : Type := Nat → String → List Nat

/-- One work item staged in a `DocumentInverter`: either the inversion of a
document or a remove tombstone. -/
inductive InvOp where
  | invert (docId : Nat) (doc : Document)
  | remove (docId : Nat)
deriving DecidableEq, Repr

/-- The two inverter instances `_inverter0` / `_inverter1`; the active
pointer `_inverter` is always one of the two. -/
inductive InvPtr where
  | inv0
  | inv1
deriving DecidableEq, Repr

/-- Modelled from the spec: add one posting (docId under (fieldId, term)) to
the field-index collection; postings for a document already present are not
duplicated. -/
def addPosting (fi : FieldIndexes) (fieldId : Nat) (term : String) (docId : Nat) :
    FieldIndexes :=
  fun f t =>
    if f = fieldId ∧ t = term then
      (if docId ∈ fi fieldId term then fi fieldId term else fi fieldId term ++ [docId])
    else fi f t

/-- Modelled from the spec: applying one staged inverter work item to the
shared field-index collection.  An inversion adds a posting for every term of
every schema field of the document; a remove drops the document's postings. -/
def applyOp (schema : Schema) (fi : FieldIndexes) (op : InvOp) : FieldIndexes :=
  match op with
  | .invert docId doc =>
      doc.fields.foldl
        (fun acc p =>
          match schema.getIndexFieldId p.1 with
          | none => acc
          | some fid => p.2.foldl (fun a t => addPosting a fid t docId) acc)
        fi
  | .remove docId => fun f t => (fi f t).filter (fun d => d ≠ docId)

/-- Modelled from the spec: `DocumentInverter::pushDocuments` "merges the
inverter's staged per-term deltas into the shared field-index collection". -/
def pushOps (schema : Schema) (fi : FieldIndexes) (ops : List InvOp) : FieldIndexes :=
  ops.foldl (applyOp schema) fi

/-- The state of a `MemoryIndex` (memory_index.cpp).  The two
`DocumentInverter` instances are represented by their staged work lists;
`_inverter` records which instance the active pointer designates. -/
structure MemoryIndex where
  _schema : Schema
  _inverter0 : List InvOp
  _inverter1 : List InvOp
  _inverter : InvPtr
  _fieldIndexes : FieldIndexes
  _frozen : Bool
  _maxDocId : Nat
  _numDocs : Nat
  _hiddenFields : List Bool
  _prunedSchema : Option Schema
  _indexedDocs : Finset Nat

/-- `MemoryIndex::MemoryIndex`: active pointer starts at `_inverter0`, not
frozen, doc id 0 reserved, no docs, `_hiddenFields` sized to the number of
index fields and all false, no pruned schema, empty indexed-doc set. -/
def MemoryIndex.mkIndex (schema : Schema) : MemoryIndex where
  _schema := schema
  _inverter0 := []
  _inverter1 := []
  _inverter := .inv0
  _fieldIndexes := fun _ _ => []
  _frozen := false
  _maxDocId := 0
  _numDocs := 0
  _hiddenFields := List.replicate schema.fields.length false
  _prunedSchema := none
  _indexedDocs := ∅

/-- The staged work list of the inverter the active pointer designates. -/
def MemoryIndex.activeStaged (st : MemoryIndex) : List InvOp :=
  match st._inverter with
  | .inv0 => st._inverter0
  | .inv1 => st._inverter1

/-- Stage one work item on the active inverter
(`_inverter->invertDocument` / `_inverter->removeDocument`). -/
def MemoryIndex.stageOp (st : MemoryIndex) (op : InvOp) : MemoryIndex :=
  match st._inverter with
  | .inv0 => { st with _inverter0 := st._inverter0 ++ [op] }
  | .inv1 => { st with _inverter1 := st._inverter1 ++ [op] }

/-- `updateMaxDocId`: the index "tracks the maximum id seen". -/
def MemoryIndex.updateMaxDocId (st : MemoryIndex) (docId : Nat) : MemoryIndex :=
  { st with _maxDocId := max st._maxDocId docId }

/-- The diagnostic log entries emitted by the embedded operations: the two
`LOG(warning, "Memory index frozen: ...")` calls. -/
inductive LogEvent where
  | warnFrozenInsert (docId : Nat)
  | warnFrozenRemove (docId : Nat)
deriving DecidableEq, Repr

/-- `MemoryIndex::insertDocument`: if frozen, log a warning and return with
the state untouched; otherwise update the max doc id, invert the document on
the active inverter, and if the doc id was not yet in `_indexedDocs` insert
it and increment `_numDocs`. -/
def MemoryIndex.insertDocument (st : MemoryIndex) (docId : Nat) (doc : Document) :
    MemoryIndex × List LogEvent :=
  if st._frozen then
    (st, [.warnFrozenInsert docId])
  else
    let st1 := (st.updateMaxDocId docId).stageOp (.invert docId doc)
    if docId ∈ st1._indexedDocs then
      (st1, [])
    else
      ({ st1 with
          _indexedDocs := insert docId st1._indexedDocs
          _numDocs := st1._numDocs + 1 }, [])

/-- `MemoryIndex::removeDocument`: if frozen, log a warning and return with
the state untouched; otherwise stage the remove on the active inverter, and
if the doc id is in `_indexedDocs` erase it and decrement `_numDocs`. -/
def MemoryIndex.removeDocument (st : MemoryIndex) (docId : Nat) :
    MemoryIndex × List LogEvent :=
  if st._frozen then
    (st, [.warnFrozenRemove docId])
  else
    let st1 := st.stageOp (.remove docId)
    if docId ∈ st1._indexedDocs then
      ({ st1 with
          _indexedDocs := st1._indexedDocs.erase docId
          _numDocs := st1._numDocs - 1 }, [])
    else
      (st1, [])

/-- `MemoryIndex::flipInverter`:
`_inverter = (_inverter != _inverter0.get()) ? _inverter0.get() : _inverter1.get()`. -/
def MemoryIndex.flipInverter (st : MemoryIndex) : MemoryIndex :=
  { st with _inverter := if st._inverter ≠ .inv0 then .inv0 else .inv1 }

/-- The observable steps a `commit` call performs, in order: the two executor
drains, the `pushDocuments` call (recording which inverter instance it is
invoked on and the caller's completion token), and the inverter flip. -/
inductive CommitEvent where
  | syncInvert
  | syncPush
  | pushDocs (inverter : InvPtr) (token : Nat)
  | flip
deriving DecidableEq, Repr

/-- `MemoryIndex::commit`: drain the invert-stage executor, drain the
push-stage executor, push the active inverter's staged documents into the
field-index collection (retaining the completion token), and flip the active
inverter.  Returns the new state together with the ordered event trace. -/
def MemoryIndex.commit (st : MemoryIndex) (token : Nat) :
    MemoryIndex × List CommitEvent :=
  let pushed := { st with _fieldIndexes := pushOps st._schema st._fieldIndexes st.activeStaged }
  let cleared :=
    match pushed._inverter with
    | .inv0 => { pushed with _inverter0 := [] }
    | .inv1 => { pushed with _inverter1 := [] }
  (cleared.flipInverter,
   [.syncInvert, .syncPush, .pushDocs st._inverter token, .flip])

/-- `MemoryIndex::freeze`: sets the frozen flag. -/
def MemoryIndex.freeze (st : MemoryIndex) : MemoryIndex :=
  { st with _frozen := true }

/-- The hidden-field vector recomputed by `pruneRemovedFields`: for every
index field of the original schema, the field is hidden exactly when it has
no counterpart in the pruned schema (`SchemaUtil::IndexIterator wi(*_prunedSchema, i)`
being invalid). -/
def computeHidden (schema pruned : Schema) : List Bool :=
  schema.fields.map (fun f => decide (f ∉ pruned.fields))

/-- `MemoryIndex::pruneRemovedFields`: intersect the current pruned schema
(or the original schema when none) with the supplied schema; if the
intersection equals the prior schema this is a no-op, otherwise store the
intersection as the pruned schema and recompute the hidden-field vector. -/
def MemoryIndex.pruneRemovedFields (st : MemoryIndex) (schema : Schema) : MemoryIndex :=
  match st._prunedSchema with
  | none =>
      let newSchema := Schema.intersect st._schema schema
      if st._schema = newSchema then st
      else
        { st with
            _prunedSchema := some newSchema
            _hiddenFields := computeHidden st._schema newSchema }
  | some pruned =>
      let newSchema := Schema.intersect pruned schema
      if pruned = newSchema then st
      else
        { st with
            _prunedSchema := some newSchema
            _hiddenFields := computeHidden st._schema newSchema }

/-- The schema currently in effect: the pruned schema if pruning has
occurred, otherwise the original schema. -/
def MemoryIndex.effectiveSchema (st : MemoryIndex) : Schema :=
  st._prunedSchema.getD st._schema

/-- A query term node: the closed set of concrete kinds the blueprint
visitor dispatches over.  Each text-matching kind carries its term text
(`queryeval::termAsString`); a number term carries its text representation
(`handleNumberTermAsText` re-expresses the numeric value as text). -/
inductive Node where
  | stringTerm (text : String)
  | prefixTerm (text : String)
  | suffixTerm (text : String)
  | substringTerm (text : String)
  | rangeTerm (text : String)
  | locationTerm (text : String)
  | regExpTerm (text : String)
  | numberTerm (text : String)
  | predicateQuery
deriving DecidableEq, Repr

/-- The text-matching term kinds: those routed to `visitTerm` directly. -/
def Node.isTextMatching : Node → Bool
  | .stringTerm _ | .prefixTerm _ | .suffixTerm _ | .substringTerm _
  | .rangeTerm _ | .locationTerm _ | .regExpTerm _ => true
  | .numberTerm _ | .predicateQuery => false

/-- The term text the visitor looks up in the dictionary: the term's text for
text-matching kinds, the numeric value re-expressed as text for number terms,
and nothing for the unsupported predicate-query kind. -/
def Node.termText : Node → Option String
  | .stringTerm t | .prefixTerm t | .suffixTerm t | .substringTerm t
  | .rangeTerm t | .locationTerm t | .regExpTerm t => some t
  | .numberTerm t => some t
  | .predicateQuery => none

/-- A query field specification: the field's name plus its static filter
configuration (`FieldSpec::isFilter`). -/
structure FieldSpec where
  name : String
  isFilter : Bool
deriving DecidableEq, Repr

/-- `Blueprint::HitEstimate`: estimated hit count plus the empty flag. -/
structure HitEstimate where
  estHits : Nat
  isEmpty : Bool
deriving DecidableEq, Repr

/-- A blueprint produced by `MemoryIndex::createBlueprint`: either the
`EmptyBlueprint` (unknown/hidden field, or unsupported term kind) or a
`MemTermBlueprint` holding the frozen posting-list snapshot, the field id,
the `_useBitVector` flag and the hit estimate stored by its constructor. -/
inductive Blueprint where
  | empty
  | memTerm (pitr : List Nat) (fieldId : Nat) (useBitVector : Bool)
      (estimate : HitEstimate)
deriving DecidableEq, Repr

/-- `MemTermBlueprint::MemTermBlueprint`: stores the posting iterator and
eagerly sets `HitEstimate(_pitr.size(), !_pitr.valid())`. -/
def mkMemTermBlueprint (pitr : List Nat) (fieldId : Nat) (useBitVector : Bool) :
    Blueprint :=
  .memTerm pitr fieldId useBitVector ⟨pitr.length, pitr.isEmpty⟩

/-- The search iterators a blueprint can produce: the feature-aware
`PostingIterator`, the `BooleanMatchIteratorWrapper` around it, or the empty
search of an `EmptyBlueprint`. -/
inductive SearchItr where
  | postingItr (pitr : List Nat) (fieldId : Nat)
  | boolMatchWrapper (inner : SearchItr)
  | emptySearch
deriving DecidableEq, Repr

/-- `MemTermBlueprint::createLeafSearch`: build the `PostingIterator`; wrap
it in a `BooleanMatchIteratorWrapper` exactly when `_useBitVector` is set. -/
def Blueprint.createLeafSearch : Blueprint → SearchItr
  | .empty => .emptySearch
  | .memTerm pitr fieldId useBitVector _ =>
      let search := SearchItr.postingItr pitr fieldId
      if useBitVector then .boolMatchWrapper search else search

/-- Whether a blueprint matches a document id: an empty blueprint matches
nothing; a term blueprint matches the documents of its posting snapshot. -/
def Blueprint.matches : Blueprint → Nat → Bool
  | .empty, _ => false
  | .memTerm pitr _ _ _, docId => docId ∈ pitr

/-- The outcome of `MemoryIndex::createBlueprint`: the blueprint plus
whether a generation guard was taken and whether a field-index lookup was
performed on the way. -/
structure CBResult where
  blueprint : Blueprint
  guardTaken : Bool
  lookedUp : Bool
deriving DecidableEq, Repr

/-- `MemoryIndex::createBlueprint`: resolve the field name; if the field id
is unknown or the field is hidden, return an `EmptyBlueprint` without
touching the field indexes.  Otherwise dispatch on the term kind: the
text-matching kinds (and number terms, as text) take a generation guard,
look up the frozen posting list and build a `MemTermBlueprint` with
`_useBitVector = field.isFilter()`; the predicate-query kind contributes
nothing. -/
def MemoryIndex.createBlueprint (st : MemoryIndex) (field : FieldSpec) (term : Node) :
    CBResult :=
  match st._schema.getIndexFieldId field.name with
  | none => ⟨.empty, false, false⟩
  | some fieldId =>
      if st._hiddenFields.getD fieldId false then ⟨.empty, false, false⟩
      else
        match term.termText with
        | none => ⟨.empty, false, false⟩
        | some termStr =>
            let pitr := st._fieldIndexes fieldId termStr
            ⟨mkMemTermBlueprint pitr fieldId field.isFilter, true, true⟩

end MemoryIndexModel

namespace ProtonModel

/-- `proton::TransientMemoryUsageProvider` (transient_memory_usage_provider.cpp):
a single atomic `size_t` cell, read and written with relaxed loads/stores. -/
structure TransientMemoryUsageProvider where
  _transient_memory_usage : Nat
deriving DecidableEq, Repr

/-- The constructor initializes the cell to `0u`. -/
def TransientMemoryUsageProvider.mkProvider : TransientMemoryUsageProvider :=
  ⟨0⟩

/-- `get_transient_memory_usage`: load the cell. -/
def TransientMemoryUsageProvider.get_transient_memory_usage
    (p : TransientMemoryUsageProvider) : Nat :=
  p._transient_memory_usage

/-- `set_transient_memory_usage`: store the given value into the cell. -/
def TransientMemoryUsageProvider.set_transient_memory_usage
    (p : TransientMemoryUsageProvider) (x : Nat) : TransientMemoryUsageProvider :=
  { p with _transient_memory_usage := x }

end ProtonModel

namespace MemoryIndexModel

/-! Helper lemmas: the staging and bookkeeping operations only touch the
record fields they are about. -/

lemma stageOp_indexedDocs (st : MemoryIndex) (op : InvOp) :
    (st.stageOp op)._indexedDocs = st._indexedDocs := by
  cases h : st._inverter <;> simp [MemoryIndex.stageOp, h]

lemma stageOp_numDocs (st : MemoryIndex) (op : InvOp) :
    (st.stageOp op)._numDocs = st._numDocs := by
  cases h : st._inverter <;> simp [MemoryIndex.stageOp, h]

lemma stageOp_frozen (st : MemoryIndex) (op : InvOp) :
    (st.stageOp op)._frozen = st._frozen := by
  cases h : st._inverter <;> simp [MemoryIndex.stageOp, h]

lemma updateMaxDocId_indexedDocs (st : MemoryIndex) (d : Nat) :
    (st.updateMaxDocId d)._indexedDocs = st._indexedDocs := rfl

lemma updateMaxDocId_numDocs (st : MemoryIndex) (d : Nat) :
    (st.updateMaxDocId d)._numDocs = st._numDocs := rfl

lemma updateMaxDocId_frozen (st : MemoryIndex) (d : Nat) :
    (st.updateMaxDocId d)._frozen = st._frozen := rfl

lemma insertDocument_frozen_eq (st : MemoryIndex) (d : Nat) (doc : Document) :
    (st.insertDocument d doc).1._frozen = st._frozen := by
  by_cases hf : st._frozen
  · simp [MemoryIndex.insertDocument, hf]
  · by_cases hmem : d ∈ st._indexedDocs <;>
      simp [MemoryIndex.insertDocument, hf, hmem,
        stageOp_indexedDocs, stageOp_frozen, updateMaxDocId_indexedDocs,
        updateMaxDocId_frozen]

lemma insertDocument_indexedDocs (st : MemoryIndex) (d : Nat) (doc : Document)
    (hf : st._frozen = false) :
    (st.insertDocument d doc).1._indexedDocs = insert d st._indexedDocs := by
  by_cases hmem : d ∈ st._indexedDocs
  · simp [MemoryIndex.insertDocument, hf, hmem,
      stageOp_indexedDocs, updateMaxDocId_indexedDocs,
      Finset.insert_eq_self.mpr hmem]
  · simp [MemoryIndex.insertDocument, hf, hmem,
      stageOp_indexedDocs, updateMaxDocId_indexedDocs]

lemma insertDocument_numDocs (st : MemoryIndex) (d : Nat) (doc : Document)
    (hf : st._frozen = false) :
    (st.insertDocument d doc).1._numDocs
      = (if d ∈ st._indexedDocs then st._numDocs else st._numDocs + 1) := by
  by_cases hmem : d ∈ st._indexedDocs <;>
    simp [MemoryIndex.insertDocument, hf, hmem,
      stageOp_indexedDocs, stageOp_numDocs, updateMaxDocId_indexedDocs,
      updateMaxDocId_numDocs]

lemma removeDocument_indexedDocs (st : MemoryIndex) (d : Nat)
    (hf : st._frozen = false) :
    (st.removeDocument d).1._indexedDocs = st._indexedDocs.erase d := by
  by_cases hmem : d ∈ st._indexedDocs
  · simp [MemoryIndex.removeDocument, hf, hmem, stageOp_indexedDocs]
  · simp [MemoryIndex.removeDocument, hf, hmem, stageOp_indexedDocs,
      Finset.erase_eq_self.mpr hmem]

lemma removeDocument_numDocs (st : MemoryIndex) (d : Nat)
    (hf : st._frozen = false) :
    (st.removeDocument d).1._numDocs
      = (if d ∈ st._indexedDocs then st._numDocs - 1 else st._numDocs) := by
  by_cases hmem : d ∈ st._indexedDocs <;>
    simp [MemoryIndex.removeDocument, hf, hmem, stageOp_indexedDocs,
      stageOp_numDocs]

lemma commit_numDocs (st : MemoryIndex) (tok : Nat) :
    (st.commit tok).1._numDocs = st._numDocs := by
  unfold MemoryIndex.commit
  cases h : st._inverter <;> simp [h, MemoryIndex.flipInverter]

lemma commit_indexedDocs (st : MemoryIndex) (tok : Nat) :
    (st.commit tok).1._indexedDocs = st._indexedDocs := by
  unfold MemoryIndex.commit
  cases h : st._inverter <;> simp [h, MemoryIndex.flipInverter]

/-- C1: `commit(doneCallback)` performs, in order, the invert-executor
drain, the push-executor drain, the `pushDocuments` call on the currently
active inverter with the field-index collection and the caller's token, and
the inverter flip; afterwards the active inverter is the other of the two
instances (the pointer always designating one of exactly two), and two
consecutive commits restore the originally active inverter. -/
theorem commit_order_and_double_flip (st : MemoryIndex) (tok tok2 : Nat) :
    (st.commit tok).2
      = [CommitEvent.syncInvert, CommitEvent.syncPush,
         CommitEvent.pushDocs st._inverter tok, CommitEvent.flip]
    ∧ (st.commit tok).1._fieldIndexes
        = pushOps st._schema st._fieldIndexes st.activeStaged
    ∧ (st.commit tok).1._inverter ≠ st._inverter
    ∧ (st._inverter = InvPtr.inv0 ∨ st._inverter = InvPtr.inv1)
    ∧ (((st.commit tok).1.commit tok2).1)._inverter = st._inverter := by
  cases h : st._inverter <;>
    simp [MemoryIndex.commit, MemoryIndex.flipInverter, h]

/-- C2: after `freeze()`, every subsequent `insertDocument` or
`removeDocument` leaves the whole index state (in particular the
indexed-document set, the live document count, the max doc id, and the
staged and committed postings) unchanged, and emits only a diagnostic
warning log entry rather than an error. -/
theorem frozen_insert_remove_noop (st : MemoryIndex) (d : Nat) (doc : Document) :
    (st.freeze.insertDocument d doc).1 = st.freeze
    ∧ (st.freeze.insertDocument d doc).2 = [LogEvent.warnFrozenInsert d]
    ∧ (st.freeze.removeDocument d).1 = st.freeze
    ∧ (st.freeze.removeDocument d).2 = [LogEvent.warnFrozenRemove d] := by
  simp [MemoryIndex.freeze, MemoryIndex.insertDocument, MemoryIndex.removeDocument]

/-- C3: on an unfrozen index, `insertDocument d doc` increments the live
document count exactly when `d` was not already marked indexed, marks `d`
indexed, and a second insertion of the same id leaves the count where the
first insertion put it (one single increment in total). -/
theorem insert_marks_and_increments_iff_new (st : MemoryIndex) (d : Nat)
    (doc doc2 : Document) (hf : st._frozen = false) :
    (st.insertDocument d doc).1._numDocs
      = (if d ∈ st._indexedDocs then st._numDocs else st._numDocs + 1)
    ∧ d ∈ (st.insertDocument d doc).1._indexedDocs
    ∧ (((st.insertDocument d doc).1.insertDocument d doc2).1)._numDocs
        = (if d ∈ st._indexedDocs then st._numDocs else st._numDocs + 1) := by
  have hf1 : (st.insertDocument d doc).1._frozen = false := by
    rw [insertDocument_frozen_eq]; exact hf
  refine ⟨insertDocument_numDocs st d doc hf, ?_, ?_⟩
  · rw [insertDocument_indexedDocs st d doc hf]
    exact Finset.mem_insert_self d _
  · rw [insertDocument_numDocs _ d doc2 hf1,
        insertDocument_indexedDocs st d doc hf]
    simp [Finset.mem_insert_self, insertDocument_numDocs st d doc hf]

theorem insert_marks_and_increments_iff_new_witness :
    ((MemoryIndex.mkIndex ⟨["a"]⟩).insertDocument 1 ⟨[]⟩).1._numDocs
      = (if 1 ∈ (MemoryIndex.mkIndex ⟨["a"]⟩)._indexedDocs
          then (MemoryIndex.mkIndex ⟨["a"]⟩)._numDocs
          else (MemoryIndex.mkIndex ⟨["a"]⟩)._numDocs + 1)
    ∧ 1 ∈ ((MemoryIndex.mkIndex ⟨["a"]⟩).insertDocument 1 ⟨[]⟩).1._indexedDocs
    ∧ (((MemoryIndex.mkIndex ⟨["a"]⟩).insertDocument 1 ⟨[]⟩).1.insertDocument
          1 ⟨[]⟩).1._numDocs
        = (if 1 ∈ (MemoryIndex.mkIndex ⟨["a"]⟩)._indexedDocs
            then (MemoryIndex.mkIndex ⟨["a"]⟩)._numDocs
            else (MemoryIndex.mkIndex ⟨["a"]⟩)._numDocs + 1) :=
  insert_marks_and_increments_iff_new (MemoryIndex.mkIndex ⟨["a"]⟩) 1 ⟨[]⟩ ⟨[]⟩ rfl

/-- C4: on an unfrozen index satisfying the count/set invariant,
`removeDocument d` decrements the live document count exactly when `d` was
marked indexed (a genuine single decrement), leaves the count alone when `d`
was never inserted, and in either case `d` is unmarked afterwards (the
indexed set becomes the erase of the old one). -/
theorem remove_unmarks_and_decrements_iff_marked (st : MemoryIndex) (d : Nat)
    (hf : st._frozen = false) (hinv : st._numDocs = st._indexedDocs.card) :
    (d ∈ st._indexedDocs → (st.removeDocument d).1._numDocs + 1 = st._numDocs)
    ∧ (d ∉ st._indexedDocs → (st.removeDocument d).1._numDocs = st._numDocs)
    ∧ d ∉ (st.removeDocument d).1._indexedDocs
    ∧ (st.removeDocument d).1._indexedDocs = st._indexedDocs.erase d := by
  refine ⟨?_, ?_, ?_, removeDocument_indexedDocs st d hf⟩
  · intro hmem
    rw [removeDocument_numDocs st d hf]
    have hpos : 0 < st._indexedDocs.card := Finset.card_pos.mpr ⟨d, hmem⟩
    simp only [hmem, if_true]
    omega
  · intro hmem
    rw [removeDocument_numDocs st d hf]
    simp [hmem]
  · rw [removeDocument_indexedDocs st d hf]
    exact Finset.not_mem_erase d _

theorem remove_unmarks_and_decrements_iff_marked_witness :
    (1 ∈ (MemoryIndex.mkIndex ⟨["a"]⟩)._indexedDocs →
      ((MemoryIndex.mkIndex ⟨["a"]⟩).removeDocument 1).1._numDocs + 1
        = (MemoryIndex.mkIndex ⟨["a"]⟩)._numDocs)
    ∧ (1 ∉ (MemoryIndex.mkIndex ⟨["a"]⟩)._indexedDocs →
      ((MemoryIndex.mkIndex ⟨["a"]⟩).removeDocument 1).1._numDocs
        = (MemoryIndex.mkIndex ⟨["a"]⟩)._numDocs)
    ∧ 1 ∉ ((MemoryIndex.mkIndex ⟨["a"]⟩).removeDocument 1).1._indexedDocs
    ∧ ((MemoryIndex.mkIndex ⟨["a"]⟩).removeDocument 1).1._indexedDocs
        = (MemoryIndex.mkIndex ⟨["a"]⟩)._indexedDocs.erase 1 :=
  remove_unmarks_and_decrements_iff_marked (MemoryIndex.mkIndex ⟨["a"]⟩) 1 rfl rfl

/-- The bookkeeping invariant: the live document count equals the size of
the indexed-document set. -/
def numDocsInv (st : MemoryIndex) : Prop :=
  st._numDocs = st._indexedDocs.card

/-- C9: `_numDocs = _indexedDocs.card` holds for a freshly constructed
index and is preserved by `insertDocument`, `removeDocument`, `commit` and
`freeze`. -/
theorem numDocs_eq_card_invariant :
    (∀ s : Schema, numDocsInv (MemoryIndex.mkIndex s))
    ∧ ∀ st : MemoryIndex, numDocsInv st →
        (∀ d doc, numDocsInv (st.insertDocument d doc).1)
        ∧ (∀ d, numDocsInv (st.removeDocument d).1)
        ∧ (∀ tok, numDocsInv (st.commit tok).1)
        ∧ numDocsInv st.freeze := by
  constructor
  · intro s
    simp [numDocsInv, MemoryIndex.mkIndex]
  · intro st hst
    have hst' : st._numDocs = st._indexedDocs.card := hst
    refine ⟨?_, ?_, ?_, hst⟩
    · intro d doc
      cases hf : st._frozen
      · unfold numDocsInv
        rw [insertDocument_numDocs st d doc hf, insertDocument_indexedDocs st d doc hf]
        by_cases hmem : d ∈ st._indexedDocs
        · simp [hmem, Finset.insert_eq_self.mpr hmem, hst']
        · simp [hmem, Finset.card_insert_of_not_mem hmem, hst']
      · have heq : (st.insertDocument d doc).1 = st := by
          simp [MemoryIndex.insertDocument, hf]
        rw [heq]; exact hst
    · intro d
      cases hf : st._frozen
      · unfold numDocsInv
        rw [removeDocument_numDocs st d hf, removeDocument_indexedDocs st d hf]
        by_cases hmem : d ∈ st._indexedDocs
        · simp [hmem, Finset.card_erase_of_mem hmem, hst']
        · simp [hmem, Finset.erase_eq_self.mpr hmem, hst']
      · have heq : (st.removeDocument d).1 = st := by
          simp [MemoryIndex.removeDocument, hf]
        rw [heq]; exact hst
    · intro tok
      unfold numDocsInv
      rw [commit_numDocs, commit_indexedDocs]
      exact hst

theorem numDocs_eq_card_invariant_witness :
    numDocsInv ((MemoryIndex.mkIndex ⟨["a"]⟩).insertDocument 1 ⟨[]⟩).1 :=
  (numDocs_eq_card_invariant.2 (MemoryIndex.mkIndex ⟨["a"]⟩)
      (numDocs_eq_card_invariant.1 ⟨["a"]⟩)).1 1 ⟨[]⟩

/-! Helper lemmas for schema pruning. -/

lemma prune_noop (st : MemoryIndex) (Snew : Schema)
    (hno : Schema.intersect st.effectiveSchema Snew = st.effectiveSchema) :
    st.pruneRemovedFields Snew = st := by
  cases h : st._prunedSchema with
  | none =>
      have hes : st.effectiveSchema = st._schema := by
        simp [MemoryIndex.effectiveSchema, h]
      rw [hes] at hno
      simp [MemoryIndex.pruneRemovedFields, h, hno]
  | some p =>
      have hes : st.effectiveSchema = p := by
        simp [MemoryIndex.effectiveSchema, h]
      rw [hes] at hno
      simp [MemoryIndex.pruneRemovedFields, h, hno]

lemma prune_schema (st : MemoryIndex) (S : Schema) :
    (st.pruneRemovedFields S)._schema = st._schema := by
  cases h : st._prunedSchema with
  | none =>
      by_cases he : st._schema = Schema.intersect st._schema S
      · simp [MemoryIndex.pruneRemovedFields, h, ← he]
      · simp [MemoryIndex.pruneRemovedFields, h, he]
  | some p =>
      by_cases he : p = Schema.intersect p S
      · simp [MemoryIndex.pruneRemovedFields, h, ← he]
      · simp [MemoryIndex.pruneRemovedFields, h, he]

lemma effectiveSchema_prune (st : MemoryIndex) (S : Schema) :
    (st.pruneRemovedFields S).effectiveSchema
      = Schema.intersect st.effectiveSchema S := by
  cases h : st._prunedSchema with
  | none =>
      have hes : st.effectiveSchema = st._schema := by
        simp [MemoryIndex.effectiveSchema, h]
      by_cases he : st._schema = Schema.intersect st._schema S
      · have hnp : st.pruneRemovedFields S = st := by
          simp [MemoryIndex.pruneRemovedFields, h, ← he]
        rw [hnp, hes]
        exact he
      · have hps : (st.pruneRemovedFields S)._prunedSchema
            = some (Schema.intersect st._schema S) := by
          simp [MemoryIndex.pruneRemovedFields, h, he]
        simp [MemoryIndex.effectiveSchema, hps, h]
  | some p =>
      have hes : st.effectiveSchema = p := by
        simp [MemoryIndex.effectiveSchema, h]
      by_cases he : p = Schema.intersect p S
      · have hnp : st.pruneRemovedFields S = st := by
          simp [MemoryIndex.pruneRemovedFields, h, ← he]
        rw [hnp, hes]
        exact he
      · have hps : (st.pruneRemovedFields S)._prunedSchema
            = some (Schema.intersect p S) := by
          simp [MemoryIndex.pruneRemovedFields, h, he]
        simp [MemoryIndex.effectiveSchema, hps, h]

/-- The hidden-field vector is always the one recomputed from the original
schema against the effective (pruned) schema. -/
def hiddenOK (st : MemoryIndex) : Prop :=
  st._hiddenFields = computeHidden st._schema st.effectiveSchema

lemma hiddenOK_mk (s : Schema) : hiddenOK (MemoryIndex.mkIndex s) := by
  unfold hiddenOK computeHidden
  simp only [MemoryIndex.mkIndex, MemoryIndex.effectiveSchema, Option.getD_none]
  symm
  rw [List.eq_replicate_iff]
  refine ⟨by simp, ?_⟩
  intro b hb
  simp only [List.mem_map] at hb
  obtain ⟨f, hf, rfl⟩ := hb
  simp [hf]

lemma hiddenOK_prune (st : MemoryIndex) (S : Schema) (hok : hiddenOK st) :
    hiddenOK (st.pruneRemovedFields S) := by
  unfold hiddenOK at *
  cases h : st._prunedSchema with
  | none =>
      by_cases he : st._schema = Schema.intersect st._schema S
      · have hnp : st.pruneRemovedFields S = st := by
          simp [MemoryIndex.pruneRemovedFields, h, ← he]
        rw [hnp]
        exact hok
      · simp [MemoryIndex.pruneRemovedFields, h, he, MemoryIndex.effectiveSchema]
  | some p =>
      by_cases he : p = Schema.intersect p S
      · have hnp : st.pruneRemovedFields S = st := by
          simp [MemoryIndex.pruneRemovedFields, h, ← he]
        rw [hnp]
        exact hok
      · simp [MemoryIndex.pruneRemovedFields, h, he, MemoryIndex.effectiveSchema]

lemma computeHidden_getElem? (s pruned : Schema) (i : Nat) :
    (computeHidden s pruned)[i]?
      = (s.fields[i]?).map (fun f => decide (f ∉ pruned.fields)) := by
  simp [computeHidden]

/-- C5: starting from original schema `S0`, pruning with `S1` and then `S2`
leaves `intersect(intersect(S0, S1), S2)` as the effective pruned schema; the
hidden-field entry of every field id `i` of `S0` marks exactly the fields
with no counterpart in that final intersection; and a prune call whose
intersection equals the current effective schema is a no-op on the whole
state. -/
theorem prune_twice_intersection_and_hidden (S0 S1 S2 : Schema) (i : Nat)
    (st : MemoryIndex) (Snew : Schema)
    (hno : Schema.intersect st.effectiveSchema Snew = st.effectiveSchema) :
    (((MemoryIndex.mkIndex S0).pruneRemovedFields S1).pruneRemovedFields
        S2).effectiveSchema
      = Schema.intersect (Schema.intersect S0 S1) S2
    ∧ (((MemoryIndex.mkIndex S0).pruneRemovedFields S1).pruneRemovedFields
        S2)._hiddenFields[i]?
      = (S0.fields[i]?).map
          (fun f =>
            decide (f ∉ (Schema.intersect (Schema.intersect S0 S1) S2).fields))
    ∧ st.pruneRemovedFields Snew = st := by
  have e0 : (MemoryIndex.mkIndex S0).effectiveSchema = S0 := by
    simp [MemoryIndex.mkIndex, MemoryIndex.effectiveSchema]
  have hsch : (((MemoryIndex.mkIndex S0).pruneRemovedFields S1).pruneRemovedFields
      S2)._schema = S0 := by
    rw [prune_schema, prune_schema]
    rfl
  have heff : (((MemoryIndex.mkIndex S0).pruneRemovedFields S1).pruneRemovedFields
      S2).effectiveSchema = Schema.intersect (Schema.intersect S0 S1) S2 := by
    rw [effectiveSchema_prune, effectiveSchema_prune, e0]
  have hok : hiddenOK (((MemoryIndex.mkIndex S0).pruneRemovedFields
      S1).pruneRemovedFields S2) :=
    hiddenOK_prune _ _ (hiddenOK_prune _ _ (hiddenOK_mk S0))
  refine ⟨heff, ?_, prune_noop st Snew hno⟩
  unfold hiddenOK at hok
  rw [hok, hsch, heff, computeHidden_getElem?]

theorem prune_twice_intersection_and_hidden_witness :
    (((MemoryIndex.mkIndex (Schema.mk ["a", "b"])).pruneRemovedFields
        (Schema.mk ["a"])).pruneRemovedFields (Schema.mk ["a"])).effectiveSchema
      = Schema.intersect (Schema.intersect (Schema.mk ["a", "b"]) (Schema.mk ["a"]))
          (Schema.mk ["a"])
    ∧ (((MemoryIndex.mkIndex (Schema.mk ["a", "b"])).pruneRemovedFields
        (Schema.mk ["a"])).pruneRemovedFields (Schema.mk ["a"]))._hiddenFields[1]?
      = ((Schema.mk ["a", "b"]).fields[1]?).map
          (fun f =>
            decide (f ∉ (Schema.intersect
              (Schema.intersect (Schema.mk ["a", "b"]) (Schema.mk ["a"]))
              (Schema.mk ["a"])).fields))
    ∧ (MemoryIndex.mkIndex (Schema.mk ["a"])).pruneRemovedFields (Schema.mk ["a"])
        = MemoryIndex.mkIndex (Schema.mk ["a"]) :=
  prune_twice_intersection_and_hidden (Schema.mk ["a", "b"]) (Schema.mk ["a"])
    (Schema.mk ["a"]) 1 (MemoryIndex.mkIndex (Schema.mk ["a"])) (Schema.mk ["a"])
    (by decide)

/-! Query blueprint claims. -/

/-- Whether a search iterator is the bitvector-oriented
`BooleanMatchIteratorWrapper`. -/
def SearchItr.isWrapper : SearchItr → Bool
  | .boolMatchWrapper _ => true
  | _ => false

/-- A small concrete index used to instantiate the blueprint theorems: one
index field "title" whose posting list for the term "car" holds documents
1 and 2. -/
def sampleIndex : MemoryIndex :=
  { MemoryIndex.mkIndex (Schema.mk ["title"]) with
      _fieldIndexes := fun f t => if f = 0 ∧ t = "car" then [1, 2] else [] }

/-- C6: when the field name does not resolve to a field id, or the resolved
field id is marked hidden, `createBlueprint` returns the empty blueprint —
which matches no document — and neither takes a generation guard nor
performs a field-index lookup. -/
theorem createBlueprint_unknown_or_hidden_empty (st : MemoryIndex)
    (field : FieldSpec) (term : Node) (d : Nat)
    (h : st._schema.getIndexFieldId field.name = none
       ∨ ∃ fid, st._schema.getIndexFieldId field.name = some fid
           ∧ st._hiddenFields.getD fid false = true) :
    (st.createBlueprint field term).blueprint = Blueprint.empty
    ∧ (st.createBlueprint field term).guardTaken = false
    ∧ (st.createBlueprint field term).lookedUp = false
    ∧ (st.createBlueprint field term).blueprint.matches d = false := by
  have hres : st.createBlueprint field term = ⟨Blueprint.empty, false, false⟩ := by
    rcases h with h | ⟨fid, h1, h2⟩
    · simp [MemoryIndex.createBlueprint, h]
    · rw [List.getD_eq_getElem?_getD] at h2
      simp [MemoryIndex.createBlueprint, h1, h2]
  rw [hres]
  exact ⟨rfl, rfl, rfl, rfl⟩

theorem createBlueprint_unknown_or_hidden_empty_witness :
    (sampleIndex.createBlueprint ⟨"body", false⟩ (Node.stringTerm "car")).blueprint
      = Blueprint.empty
    ∧ (sampleIndex.createBlueprint ⟨"body", false⟩
        (Node.stringTerm "car")).guardTaken = false
    ∧ (sampleIndex.createBlueprint ⟨"body", false⟩
        (Node.stringTerm "car")).lookedUp = false
    ∧ (sampleIndex.createBlueprint ⟨"body", false⟩
        (Node.stringTerm "car")).blueprint.matches 1 = false :=
  createBlueprint_unknown_or_hidden_empty sampleIndex ⟨"body", false⟩
    (Node.stringTerm "car") 1 (Or.inl (by decide))

/-- C7: for a known, non-hidden field and a text-matching term kind, the
blueprint built by `createBlueprint` is a `MemTermBlueprint` whose stored
hit estimate — set at construction — equals the size of the frozen
posting-list snapshot, with the empty flag set exactly when the snapshot
found no postings. -/
theorem createBlueprint_eager_estimate (st : MemoryIndex) (field : FieldSpec)
    (term : Node) (fid : Nat) (txt : String)
    (hfid : st._schema.getIndexFieldId field.name = some fid)
    (hhid : st._hiddenFields.getD fid false = false)
    (htxt : term.termText = some txt)
    (_htm : term.isTextMatching = true) :
    (st.createBlueprint field term).blueprint
      = Blueprint.memTerm (st._fieldIndexes fid txt) fid field.isFilter
          ⟨(st._fieldIndexes fid txt).length, (st._fieldIndexes fid txt).isEmpty⟩
    ∧ ((st._fieldIndexes fid txt).isEmpty = true ↔ st._fieldIndexes fid txt = []) := by
  constructor
  · rw [List.getD_eq_getElem?_getD] at hhid
    simp [MemoryIndex.createBlueprint, hfid, hhid, htxt, mkMemTermBlueprint]
  · exact List.isEmpty_iff

theorem createBlueprint_eager_estimate_witness :
    (sampleIndex.createBlueprint ⟨"title", false⟩ (Node.stringTerm "car")).blueprint
      = Blueprint.memTerm (sampleIndex._fieldIndexes 0 "car") 0 false
          ⟨(sampleIndex._fieldIndexes 0 "car").length,
           (sampleIndex._fieldIndexes 0 "car").isEmpty⟩
    ∧ ((sampleIndex._fieldIndexes 0 "car").isEmpty = true
        ↔ sampleIndex._fieldIndexes 0 "car" = []) :=
  createBlueprint_eager_estimate sampleIndex ⟨"title", false⟩
    (Node.stringTerm "car") 0 "car" (by decide) (by decide) rfl rfl

/-- C8: executing a blueprint built for a known, non-hidden field wraps the
feature-aware `PostingIterator` in a `BooleanMatchIteratorWrapper` exactly
when the field's static filter configuration is set, and the choice depends
only on the `_useBitVector` flag captured at construction, never on the
posting data. -/
theorem createLeafSearch_filter_config (st : MemoryIndex) (field : FieldSpec)
    (term : Node) (fid : Nat) (txt : String)
    (p1 p2 : List Nat) (f1 f2 : Nat) (b : Bool) (e1 e2 : HitEstimate)
    (hfid : st._schema.getIndexFieldId field.name = some fid)
    (hhid : st._hiddenFields.getD fid false = false)
    (htxt : term.termText = some txt) :
    (st.createBlueprint field term).blueprint.createLeafSearch
      = (if field.isFilter
          then SearchItr.boolMatchWrapper
                 (SearchItr.postingItr (st._fieldIndexes fid txt) fid)
          else SearchItr.postingItr (st._fieldIndexes fid txt) fid)
    ∧ (Blueprint.memTerm p1 f1 b e1).createLeafSearch.isWrapper
        = (Blueprint.memTerm p2 f2 b e2).createLeafSearch.isWrapper
    ∧ (Blueprint.memTerm p1 f1 b e1).createLeafSearch.isWrapper = b := by
  refine ⟨?_, ?_, ?_⟩
  · rw [List.getD_eq_getElem?_getD] at hhid
    cases hb : field.isFilter <;>
      simp [MemoryIndex.createBlueprint, hfid, hhid, htxt, mkMemTermBlueprint,
        Blueprint.createLeafSearch, hb]
  · cases b <;> rfl
  · cases b <;> rfl

theorem createLeafSearch_filter_config_witness :
    (sampleIndex.createBlueprint ⟨"title", true⟩
        (Node.stringTerm "car")).blueprint.createLeafSearch
      = (if (FieldSpec.mk "title" true).isFilter
          then SearchItr.boolMatchWrapper
                 (SearchItr.postingItr (sampleIndex._fieldIndexes 0 "car") 0)
          else SearchItr.postingItr (sampleIndex._fieldIndexes 0 "car") 0)
    ∧ (Blueprint.memTerm [1] 0 true ⟨1, false⟩).createLeafSearch.isWrapper
        = (Blueprint.memTerm [9, 9] 5 true ⟨0, true⟩).createLeafSearch.isWrapper
    ∧ (Blueprint.memTerm [1] 0 true ⟨1, false⟩).createLeafSearch.isWrapper = true :=
  createLeafSearch_filter_config sampleIndex ⟨"title", true⟩
    (Node.stringTerm "car") 0 "car" [1] [9, 9] 0 5 true ⟨1, false⟩ ⟨0, true⟩
    (by decide) (by decide) rfl

end MemoryIndexModel

namespace ProtonModel

/-- C10: a freshly constructed `TransientMemoryUsageProvider` reports a
transient memory usage of 0, and after `set_transient_memory_usage x` the
getter returns exactly `x`, for every value `x`. -/
theorem provider_fresh_zero_and_get_set :
    TransientMemoryUsageProvider.mkProvider.get_transient_memory_usage = 0
    ∧ ∀ (p : TransientMemoryUsageProvider) (x : Nat),
        (p.set_transient_memory_usage x).get_transient_memory_usage = x :=
  ⟨rfl, fun _ _ => rfl⟩

end ProtonModel
